import Mathlib

/-!
Shallow embedding of the sileo toast-notification library
(src/toast.tsx, src/sileo.tsx, src/unnamed/part_000).

Conventions of the embedding:
* TS `number` values (durations, delays, heights, the logical clock) are
  modelled as `Int`; all claimed properties are order-theoretic and do not
  depend on fractional values.
* Optional TS fields (`f?: T`) are `Option T`; a field typed `T | null`
  inside an optional field becomes `Option (Option T)` (`none` = absent,
  `some none` = explicit `null`).
* `generateId` in the source is a counter plus a timestamp/random suffix
  whose only purpose is global freshness of generated ids.  Ids are modelled
  as a sum of generated ids (carrying the counter value) and user-supplied
  string ids; freshness of generated ids is the counter's injectivity.
* React's run-to-completion semantics: every store mutation synchronously
  notifies the mounted Toaster, whose timer-management effect
  (prune + schedule, src/toast.tsx lines 310-323) runs before any further
  external event.  The effect is therefore folded into each operation.
* `setTimeout` handles are modelled as pending events carrying their fire
  time; firing an event is a step of the transition relation.
-/

/- ------------------------- Constants (toast.tsx 22-25) ------------------- -/

def DEFAULT_DURATION : Int := 6000

/-- `DEFAULT_DURATION * 0.1` -/
def EXIT_DURATION : Int := 600

/-- `DEFAULT_DURATION * 0.025` -/
def AUTO_EXPAND_DELAY : Int := 150

/-- `DEFAULT_DURATION - 2000` -/
def AUTO_COLLAPSE_DELAY : Int := 4000

/- ------------------------------- Basic types ----------------------------- -/

inductive ToastPosition
  | topLeft | topCenter | topRight | bottomLeft | bottomCenter | bottomRight
deriving DecidableEq, Repr

inductive SileoState
  | success | loading | error | warning | info | action
deriving DecidableEq, Repr

/-- Ids produced by `generateId` (counter value) versus user-supplied string
ids.  The timestamp/random suffix of the source's `generateId` exists only to
make generated ids distinct from each other and from user strings; the sum
encoding captures exactly that. -/
inductive ToastId
  | gen (n : Nat)
  | user (s : String)
deriving DecidableEq, Repr

/-- JS truthiness of an id string: the empty string is falsy. -/
def ToastId.truthy : ToastId → Bool
  | .gen _ => true
  | .user s => s ≠ ""

/-- `generateId` (toast.tsx 100-102): increments the counter. -/
def generateId (c : Nat) : ToastId × Nat := (.gen (c + 1), c + 1)

structure SileoStyles where
  title? : Option String := none
  description? : Option String := none
  badge? : Option String := none
  button? : Option String := none
deriving DecidableEq, Repr

/-- The `onClick` callback carries no observable state; the button payload is
its title. -/
structure SileoButton where
  title : String
deriving DecidableEq, Repr

/-- `autopilot?: boolean | { expand?: number; collapse?: number }`. -/
inductive AutopilotOpt
  | flag (b : Bool)
  | cfg (expand? : Option Int) (collapse? : Option Int)
deriving DecidableEq, Repr

/-- `ToastOptions` (toast.tsx 42-53).  `description`/`icon` are ReactNode;
they are modelled as opaque string payloads (JS truthiness: `""` is falsy). -/
structure ToastOptions where
  title? : Option String := none
  description? : Option String := none
  position? : Option ToastPosition := none
  duration? : Option (Option Int) := none
  icon? : Option (Option String) := none
  styles? : Option SileoStyles := none
  fill? : Option String := none
  roundness? : Option Int := none
  autopilot? : Option AutopilotOpt := none
  button? : Option SileoButton := none
deriving DecidableEq, Repr

/-- `InternalToastOptions` (toast.tsx 55-58). -/
structure InternalToastOptions extends ToastOptions where
  id? : Option ToastId := none
  state? : Option SileoState := none
deriving DecidableEq, Repr

/-- `ToastItem` (toast.tsx 60-66).  `exiting?: boolean` is only ever checked
truthily, so absent and `false` coincide. -/
structure ToastItem where
  id : ToastId
  instanceId : ToastId
  title? : Option String := none
  description? : Option String := none
  position? : Option ToastPosition := none
  duration? : Option (Option Int) := none
  icon? : Option (Option String) := none
  styles? : Option SileoStyles := none
  fill? : Option String := none
  roundness? : Option Int := none
  autopilot? : Option AutopilotOpt := none
  button? : Option SileoButton := none
  state? : Option SileoState := none
  exiting : Bool := false
  autoExpandDelayMs? : Option Int := none
  autoCollapseDelayMs? : Option Int := none
deriving DecidableEq, Repr

/- ----------------------------- Option merging ---------------------------- -/

/-- Fallback of TS object spread on optional fields: the override's value when
the key is present, otherwise the base's. -/
def fb {α : Type} (o b : Option α) : Option α :=
  match o with
  | some x => some x
  | none => b

/-- `{ ...store.options?.styles, ...options.styles }`: always yields an
object, merged field-wise. -/
def mergeStyles (base? o? : Option SileoStyles) : SileoStyles :=
  let b := base?.getD {}
  let o := o?.getD {}
  { title? := fb o.title? b.title?
    description? := fb o.description? b.description?
    badge? := fb o.badge? b.badge?
    button? := fb o.button? b.button? }

/-- `{ ...store.options, ...options, styles: {...} }` (toast.tsx 137-141 and
168-172).  `store.options : Partial<ToastOptions>` carries no `id`/`state`
keys, so those come from `options` alone. -/
def mergeOptions (base? : Option ToastOptions) (o : InternalToastOptions) :
    InternalToastOptions :=
  let b := base?.getD {}
  { title? := fb o.title? b.title?
    description? := fb o.description? b.description?
    position? := fb o.position? b.position?
    duration? := fb o.duration? b.duration?
    icon? := fb o.icon? b.icon?
    styles? := some (mergeStyles b.styles? o.styles?)
    fill? := fb o.fill? b.fill?
    roundness? := fb o.roundness? b.roundness?
    autopilot? := fb o.autopilot? b.autopilot?
    button? := fb o.button? b.button?
    id? := o.id?
    state? := o.state? }

/-- `x ?? DEFAULT_DURATION` applied to a `duration?: number | null` field:
`??` replaces both absent and `null` by the default. -/
def resolveDuration (d : Option (Option Int)) : Int :=
  match d with
  | some (some v) => v
  | _ => DEFAULT_DURATION

/-- `Math.min(duration, Math.max(0, v))` (toast.tsx 128). -/
def clampI (d v : Int) : Int := min d (max 0 v)

/-- `resolveAutopilot` (toast.tsx 122-133).  The guard
`opts.autopilot === false || !duration || duration <= 0` returns `{}`;
`!duration` is true for `null` and `0`, so together the guards are
`autopilot === false`, `duration = null`, or `duration ≤ 0`. -/
def resolveAutopilot (opts : InternalToastOptions) (duration : Option Int) :
    Option Int × Option Int :=
  if opts.autopilot? = some (.flag false) then (none, none)
  else
    match duration with
    | none => (none, none)
    | some d =>
      if d ≤ 0 then (none, none)
      else
        let cE : Option Int :=
          match opts.autopilot? with
          | some (.cfg e _) => e
          | _ => none
        let cC : Option Int :=
          match opts.autopilot? with
          | some (.cfg _ c2) => c2
          | _ => none
        (some (clampI d (cE.getD AUTO_EXPAND_DELAY)),
         some (clampI d (cC.getD AUTO_COLLAPSE_DELAY)))

/-- The item literal built by `createToast` (toast.tsx 151-158) and
`updateToast` (toast.tsx 178-185): spread of `merged` with `id`,
`instanceId`, resolved `position`, and the two autopilot delays. -/
def buildItem (merged : InternalToastOptions) (id instanceId : ToastId)
    (position? : Option ToastPosition) (auto : Option Int × Option Int) :
    ToastItem :=
  { id := id
    instanceId := instanceId
    title? := merged.title?
    description? := merged.description?
    position? := position?
    duration? := merged.duration?
    icon? := merged.icon?
    styles? := merged.styles?
    fill? := merged.fill?
    roundness? := merged.roundness?
    autopilot? := merged.autopilot?
    button? := merged.button?
    state? := merged.state?
    exiting := false
    autoExpandDelayMs? := auto.1
    autoCollapseDelayMs? := auto.2 }

/- ------------------------------ Global state ------------------------------ -/

/-- The module-level `store` (toast.tsx 84-98) minus the listener set: the
single mounted Toaster is the listener and is folded into the operations. -/
structure StoreState where
  toasts : List ToastItem := []
  position : ToastPosition := .topRight
  options? : Option ToastOptions := none
deriving DecidableEq, Repr

/-- A pending dismiss timer held in the Toaster's `timersRef`, keyed by
`timeoutKey` = `(stable id, instance id)` (toast.tsx 104: the string
`id + ":" + instanceId`; instance ids contain no colon, so the string key and
the pair are in bijection). -/
structure DismissTimer where
  key : ToastId × ToastId
  fire : Int
deriving DecidableEq, Repr

/-- Whole-system state: the store, the id counter, the logical clock, the
Toaster's hover flag and dismiss-timer map, and the pending exit-removal
`setTimeout`s created by `dismissToast`. -/
structure Sys where
  store : StoreState := {}
  counter : Nat := 0
  now : Int := 0
  hover : Bool := false
  timers : List DismissTimer := []
  removals : List (ToastId × Int) := []
deriving DecidableEq, Repr

def timeoutKey (t : ToastItem) : ToastId × ToastId := (t.id, t.instanceId)

/- -------------------- Toaster timer management (310-323) ------------------ -/

/-- Cleanup of timers whose key no longer belongs to any toast
(toast.tsx 313-320). -/
def pruneTimers (toasts : List ToastItem) (timers : List DismissTimer) :
    List DismissTimer :=
  timers.filter (fun tm => toasts.any (fun t => decide (timeoutKey t = tm.key)))

/-- One iteration of the `schedule` loop body (toast.tsx 284-296).
`const dur = item.duration ?? DEFAULT_DURATION` resolves `null` to the
default, which makes the `dur === null` branch of the following guard
unreachable; only `dur <= 0` remains. -/
def scheduleOne (acc : Sys) (item : ToastItem) : Sys :=
  if item.exiting then acc
  else if acc.timers.any (fun tm => decide (tm.key = timeoutKey item)) then acc
  else if resolveDuration item.duration? ≤ 0 then acc
  else
    { acc with
      timers := acc.timers ++
        [{ key := timeoutKey item
           fire := acc.now + resolveDuration item.duration? }] }

/-- `schedule` (toast.tsx 281-297): no-op while hovered, otherwise one pass
over the items. -/
def scheduleTimers (s : Sys) (items : List ToastItem) : Sys :=
  if s.hover then s else items.foldl scheduleOne s

/-- The timer-management effect (toast.tsx 310-323): prune stale keys, then
schedule.  Runs synchronously after every store change. -/
def timersEffect (s : Sys) : Sys :=
  scheduleTimers { s with timers := pruneTimers s.store.toasts s.timers }
    s.store.toasts

/- ----------------------------- Store operations --------------------------- -/

/-- `const prev = merged.id ? live.find(...) : live[live.length - 1]`
(toast.tsx 143-145): truthiness of `merged.id` decides between a lookup and
the most recent live record. -/
def createPrev (id? : Option ToastId) (live : List ToastItem) :
    Option ToastItem :=
  match id? with
  | some i => if i.truthy then live.find? (fun t => decide (t.id = i))
              else live.getLast?
  | none => live.getLast?

/-- `const id = merged.id ?? prev?.id ?? generateId()` (toast.tsx 146),
together with its effect on the id counter (`generateId` runs only when both
earlier alternatives are nullish). -/
def resolveCreateId (id? : Option ToastId) (prev? : Option ToastItem)
    (c : Nat) : ToastId × Nat :=
  match id? with
  | some i => (i, c)
  | none =>
    match prev? with
    | some p => (p.id, c)
    | none => generateId c

/-- `createToast` (toast.tsx 135-162).  Returns the new system state, the
stable id used, and the `??`-resolved duration returned to the caller.
Note `store.update(() => [item])` (line 160): the new store is the singleton
`[item]`. -/
def createToast (options : InternalToastOptions) (s : Sys) :
    Sys × ToastId × Int :=
  let live := s.store.toasts.filter (fun t => !t.exiting)
  let merged := mergeOptions s.store.options? options
  let prev? := createPrev merged.id? live
  let idc := resolveCreateId merged.id? prev? s.counter
  let instc := generateId idc.2
  let duration := resolveDuration merged.duration?
  let auto := resolveAutopilot merged (some duration)
  let item := buildItem merged idc.1 instc.1
    (some ((fb merged.position? (prev?.bind (fun p => p.position?))).getD
      s.store.position)) auto
  (timersEffect
    { s with counter := instc.2, store := { s.store with toasts := [item] } },
   idc.1, duration)

/-- `updateToast` (toast.tsx 164-188): no-op when the id is unknown,
otherwise the matching record is replaced in place by a rebuilt item with a
fresh instance id. -/
def updateToast (id : ToastId) (options : InternalToastOptions) (s : Sys) :
    Sys :=
  match s.store.toasts.find? (fun t => decide (t.id = id)) with
  | none => s
  | some existing =>
    let merged := mergeOptions s.store.options? options
    let instc := generateId s.counter
    let duration := resolveDuration merged.duration?
    let auto := resolveAutopilot merged (some duration)
    let item := buildItem merged id instc.1
      (some ((fb merged.position? existing.position?).getD s.store.position))
      auto
    timersEffect
      { s with
        counter := instc.2
        store := { s.store with
          toasts := s.store.toasts.map
            (fun t => if t.id = id then item else t) } }

/-- `dismissToast` (toast.tsx 108-120): no-op for unknown or already-exiting
ids; otherwise flags the record exiting and schedules its removal
`EXIT_DURATION` later. -/
def dismissToast (id : ToastId) (s : Sys) : Sys :=
  match s.store.toasts.find? (fun t => decide (t.id = id)) with
  | none => s
  | some item =>
    if item.exiting then s
    else
      let s1 := timersEffect
        { s with store := { s.store with
            toasts := s.store.toasts.map
              (fun t => if t.id = id then { t with exiting := true } else t) } }
      { s1 with removals := s1.removals ++ [(id, s.now + EXIT_DURATION)] }

/-- The exit-removal `setTimeout` callback (toast.tsx 116-119) firing at its
scheduled time: `prev.filter((t) => t.id !== id)`. -/
def fireRemoval (id : ToastId) (ft : Int) (s : Sys) : Sys :=
  timersEffect
    { s with
      now := ft
      removals := s.removals.erase (id, ft)
      store := { s.store with
        toasts := s.store.toasts.filter (fun t => decide (t.id ≠ id)) } }

/-- A dismiss timer firing at its scheduled time: the browser drops the
fired handle and the callback runs `dismissToast(item.id)` (toast.tsx 294).
(The source keeps the stale map entry until the next prune; the stale entry
only suppresses rescheduling of the same `(id, instanceId)` key, which
`schedule` skips anyway because the toast is by then exiting or gone.) -/
def fireTimer (tm : DismissTimer) (s : Sys) : Sys :=
  dismissToast tm.key.1 { s with now := tm.fire, timers := s.timers.erase tm }

/-- `sileo.clear` (toast.tsx 242-245). -/
def clearToasts (position? : Option ToastPosition) (s : Sys) : Sys :=
  timersEffect
    { s with store := { s.store with
        toasts :=
          match position? with
          | some p => s.store.toasts.filter
              (fun t => decide (t.position? ≠ some p))
          | none => [] } }

/-- `handleMouseEnter` (toast.tsx 329-333): set hover, clear all timers. -/
def handleMouseEnter (s : Sys) : Sys :=
  if s.hover then s else { s with hover := true, timers := [] }

/-- `handleMouseLeave` (toast.tsx 335-339): unset hover, reschedule for the
current list. -/
def handleMouseLeave (s : Sys) : Sys :=
  if s.hover then scheduleTimers { s with hover := false } s.store.toasts
  else s

/- ----------------------------- Public toast API --------------------------- -/

def sileoShow (o : ToastOptions) (s : Sys) : Sys × ToastId × Int :=
  createToast { toToastOptions := o } s

def sileoSuccess (o : ToastOptions) (s : Sys) : Sys × ToastId × Int :=
  createToast { toToastOptions := o, state? := some .success } s

def sileoError (o : ToastOptions) (s : Sys) : Sys × ToastId × Int :=
  createToast { toToastOptions := o, state? := some .error } s

def sileoWarning (o : ToastOptions) (s : Sys) : Sys × ToastId × Int :=
  createToast { toToastOptions := o, state? := some .warning } s

def sileoInfo (o : ToastOptions) (s : Sys) : Sys × ToastId × Int :=
  createToast { toToastOptions := o, state? := some .info } s

def sileoAction (o : ToastOptions) (s : Sys) : Sys × ToastId × Int :=
  createToast { toToastOptions := o, state? := some .action } s

/- ------------------------------ Promise flow ------------------------------ -/

/-- The eventual fate of the promise handed to `sileo.promise`. -/
inductive Outcome (A E : Type)
  | resolved (a : A)
  | rejected (e : E)

/-- `ToastPromiseOptions` (toast.tsx 190-195): each branch is either a static
options object or a function of the settled value. -/
structure ToastPromiseOptions (A E : Type) where
  loadingTitle? : Option String := none
  loadingIcon? : Option (Option String) := none
  success : Sum ToastOptions (A → ToastOptions)
  error : Sum ToastOptions (E → ToastOptions)
  action? : Option (Sum ToastOptions (A → ToastOptions)) := none

def resolveBranch {A : Type} (b : Sum ToastOptions (A → ToastOptions))
    (a : A) : ToastOptions :=
  match b with
  | .inl o => o
  | .inr f => f a

/-- The synchronous part of `sileo.promise` (toast.tsx 211-215): create the
loading toast with `state: "loading"` and `duration: null`. -/
def promiseStart {A E : Type} (popts : ToastPromiseOptions A E) (s : Sys) :
    Sys × ToastId :=
  let r := createToast
    { title? := popts.loadingTitle?
      icon? := popts.loadingIcon?
      state? := some .loading
      duration? := some none } s
  (r.1, r.2.1)

/-- The settlement handlers of `sileo.promise` (toast.tsx 219-235): on
resolution, update to `action` state when `opts.action` is configured,
otherwise to `success`; on rejection, update to `error`.  Each handler
spreads the computed branch options and overrides `state` and `id`. -/
def promiseSettle {A E : Type} (popts : ToastPromiseOptions A E)
    (id : ToastId) (outcome : Outcome A E) (s : Sys) : Sys :=
  match outcome with
  | .resolved a =>
    match popts.action? with
    | some br =>
      updateToast id
        { toToastOptions := resolveBranch br a
          state? := some .action, id? := some id } s
    | none =>
      updateToast id
        { toToastOptions := resolveBranch popts.success a
          state? := some .success, id? := some id } s
  | .rejected e =>
    updateToast id
      { toToastOptions := resolveBranch popts.error e
        state? := some .error, id? := some id } s

/-- `sileo.promise` returns the original promise `p` (toast.tsx 237): the
caller observes the original resolution or rejection, untouched by the
handlers (which absorb rejection into `updateToast` and return nothing). -/
def promiseResult {A E : Type} (outcome : Outcome A E) : Outcome A E :=
  outcome

/- ------------------------ Widget model (sileo.tsx) ------------------------ -/

/-- `HEIGHT` (sileo.tsx 28). -/
def HEIGHT : Int := 40

/-- `HEIGHT * MIN_EXPAND_RATIO` with the expand quotient 2.25
(sileo.tsx 33, 364). -/
def minExpanded : Int := 90

/-- The committed `View` of a widget (sileo.tsx 52-60), restricted to the
fields the claims observe. -/
structure SileoView where
  description? : Option String := none
  button? : Option SileoButton := none
  state : SileoState := .success
deriving DecidableEq, Repr

/-- `hasDesc = Boolean(view.description) || Boolean(view.button)`
(sileo.tsx 168); the empty string is falsy. -/
def hasDescOf (v : SileoView) : Bool :=
  (match v.description? with
   | some str => str ≠ ""
   | none => false) || v.button?.isSome

/-- `open = hasDesc && isExpanded && !isLoading` (sileo.tsx 169-170). -/
def openOf (v : SileoView) (isExpanded : Bool) : Bool :=
  hasDescOf v && isExpanded && !(v.state = .loading : Bool)

/-- `allowExpand` (sileo.tsx 171-173):
`isLoading ? false : (canExpand ?? (!interruptKey || interruptKey === id))`;
an absent or empty interrupt key is falsy. -/
def allowExpandOf (v : SileoView) (canExpand? : Option Bool)
    (interruptKey? : Option ToastId) (id : ToastId) : Bool :=
  if v.state = .loading then false
  else
    match canExpand? with
    | some b => b
    | none =>
      match interruptKey? with
      | none => true
      | some k => if k.truthy then decide (k = id) else true

/-- `rawExpanded` (sileo.tsx 366-368). -/
def rawExpandedOf (hasDesc : Bool) (contentHeight : Int) : Int :=
  if hasDesc then max minExpanded (HEIGHT + contentHeight) else minExpanded

/-- The frozen-height logic of one render (sileo.tsx 373-378):
`frozenExpandedRef` is overwritten with `rawExpanded` only while `open`;
`expanded` is `rawExpanded` while open and the frozen value otherwise.
Returns (new frozen value, rendered expanded height). -/
def renderHeights (frozen : Int) (hasDesc : Bool) (contentHeight : Int)
    (isOpen : Bool) : Int × Int :=
  let rawExpanded := rawExpandedOf hasDesc contentHeight
  let frozenNew := if isOpen then rawExpanded else frozen
  (frozenNew, if isOpen then rawExpanded else frozenNew)

/-- Widget-local state for the refresh/staged-swap logic
(sileo.tsx 183-194, 279-313). -/
structure WidgetState where
  view : SileoView
  isExpanded : Bool := false
  pending? : Option SileoView := none
  frozen : Int := minExpanded
  lastRefreshKey? : Option ToastId := none
deriving DecidableEq, Repr

/-- The refresh effect (sileo.tsx 279-313): on a changed `refreshKey`, an
open widget stages the new payload and collapses; a collapsed widget applies
it immediately. -/
def refreshEffect (ws : WidgetState) (refreshKey? : Option ToastId)
    (next : SileoView) : WidgetState :=
  match refreshKey? with
  | none =>
    { ws with view := next, pending? := none, lastRefreshKey? := none }
  | some rk =>
    if ws.lastRefreshKey? = some rk then ws
    else if openOf ws.view ws.isExpanded then
      { ws with
        lastRefreshKey? := some rk
        pending? := some next
        isExpanded := false }
    else
      { ws with
        lastRefreshKey? := some rk
        pending? := none
        view := next }

/-- The staged-swap commit (the swap timer at sileo.tsx 300-307, or the
transition-end fallback at 439-457): apply the pending payload. -/
def swapCommit (ws : WidgetState) : WidgetState :=
  match ws.pending? with
  | none => ws
  | some v => { ws with view := v, pending? := none }

/-- `handleEnter` (sileo.tsx 423-429): hover-in expands only when there is
content. -/
def handleEnter (hasDesc isExpanded : Bool) : Bool :=
  if hasDesc then true else isExpanded

/-- The auto expand/collapse effect (sileo.tsx 317-360), summarised by its
observable outcome: the `isExpanded` value it forces plus whether an
auto-expand timer and an auto-collapse timer get scheduled. -/
def autoEffect (hasDesc exiting allowExpand : Bool)
    (expandDelay? collapseDelay? : Option Int) (isExpanded : Bool) :
    Bool × Bool × Bool :=
  if !hasDesc then (isExpanded, false, false)
  else if exiting || !allowExpand then (false, false, false)
  else if expandDelay?.isNone && collapseDelay?.isNone then
    (isExpanded, false, false)
  else
    let e := expandDelay?.getD 0
    let cD := collapseDelay?.getD 0
    if e > 0 then (isExpanded, true, decide (cD > 0))
    else (true, false, decide (cD > 0))

/- --------------------------- Transition system ---------------------------- -/

/-- One run-to-completion step of the whole system: a public API call, a
hover transition, or a pending timeout firing at its scheduled time. -/
inductive Step : Sys → Sys → Prop
  | create (o : InternalToastOptions) (s : Sys) : Step s (createToast o s).1
  | update (id : ToastId) (o : InternalToastOptions) (s : Sys) :
      Step s (updateToast id o s)
  | dismiss (id : ToastId) (s : Sys) : Step s (dismissToast id s)
  | clearPos (p? : Option ToastPosition) (s : Sys) : Step s (clearToasts p? s)
  | enter (s : Sys) : Step s (handleMouseEnter s)
  | leave (s : Sys) : Step s (handleMouseLeave s)
  | fireT (tm : DismissTimer) (s : Sys) (h : tm ∈ s.timers)
      (hle : s.now ≤ tm.fire) : Step s (fireTimer tm s)
  | fireR (r : ToastId × Int) (s : Sys) (h : r ∈ s.removals)
      (hle : s.now ≤ r.2) : Step s (fireRemoval r.1 r.2 s)

/-- States reachable from the pristine system (empty store, nothing
pending). -/
inductive Reachable : Sys → Prop
  | init : Reachable {}
  | step {s s2 : Sys} : Reachable s → Step s s2 → Reachable s2

/-- Instance ids are generated, never user-supplied: every instance id in the
store or in a timer key was minted by a past `generateId` call and is
therefore bounded by the current counter. -/
def instBound (s : Sys) : Prop :=
  (∀ t ∈ s.store.toasts, ∃ n, n ≤ s.counter ∧ t.instanceId = ToastId.gen n)
  ∧ (∀ tm ∈ s.timers, ∃ n, n ≤ s.counter ∧ tm.key.2 = ToastId.gen n)

/-- System invariant: the replace-all store holds at most one record, the
timer map has pairwise-distinct keys, hovering leaves no pending dismiss
timers, and all instance ids are counter-bounded. -/
def InvGood (s : Sys) : Prop :=
  s.store.toasts.length ≤ 1
  ∧ (s.timers.map (fun tm => tm.key)).Nodup
  ∧ (s.hover = true → s.timers = [])
  ∧ instBound s

/-- The autopilot-delay shape claimed for produced records: both delays
absent exactly when autopilot is disabled or the resolved duration is
non-positive; otherwise each delay is the clamped override, lying in
`[0, duration]`. -/
def AutoDelaysOk (autopilot? : Option AutopilotOpt) (dur : Int)
    (e? c? : Option Int) : Prop :=
  ((e? = none ∧ c? = none) ↔ (autopilot? = some (.flag false) ∨ dur ≤ 0))
  ∧ (∀ v, e? = some v → 0 ≤ v ∧ v ≤ dur)
  ∧ (∀ v, c? = some v → 0 ≤ v ∧ v ≤ dur)
  ∧ (∀ cfgE cfgC, autopilot? = some (.cfg cfgE cfgC) → ¬ dur ≤ 0 →
      e? = some (clampI dur (cfgE.getD AUTO_EXPAND_DELAY))
      ∧ c? = some (clampI dur (cfgC.getD AUTO_COLLAPSE_DELAY)))

/- --------------------- Derived forms and concrete states ------------------ -/

/-- The item constructed by `createToast` (toast.tsx 151-158), recomputed as
a standalone value (proved equal to the stored record in
`createToast_toasts`). -/
def createdItem (options : InternalToastOptions) (s : Sys) : ToastItem :=
  let live := s.store.toasts.filter (fun t => !t.exiting)
  let merged := mergeOptions s.store.options? options
  let prev? := createPrev merged.id? live
  let idc := resolveCreateId merged.id? prev? s.counter
  buildItem merged idc.1 (generateId idc.2).1
    (some ((fb merged.position? (prev?.bind (fun p => p.position?))).getD
      s.store.position))
    (resolveAutopilot merged (some (resolveDuration merged.duration?)))

/-- The terminal state a `sileo.promise` toast reaches on settlement
(toast.tsx 219-235): `action` when configured, else `success`; `error` on
rejection. -/
def settledState {A E : Type} (popts : ToastPromiseOptions A E)
    (outcome : Outcome A E) : SileoState :=
  match outcome with
  | .resolved _ =>
    match popts.action? with
    | some _ => .action
    | none => .success
  | .rejected _ => .error

/-- The options the settlement handlers compute: the static object or the
configured function applied to the settled value (toast.tsx 220-234). -/
def settledOptions {A E : Type} (popts : ToastPromiseOptions A E)
    (outcome : Outcome A E) : ToastOptions :=
  match outcome with
  | .resolved a =>
    match popts.action? with
    | some br => resolveBranch br a
    | none => resolveBranch popts.success a
  | .rejected e => resolveBranch popts.error e

/-- The pristine system. -/
def sysEmpty : Sys := {}

/-- The record created by `createToast({})` on the pristine system. -/
def demoToast : ToastItem :=
  { id := .gen 1
    instanceId := .gen 2
    position? := some .topRight
    styles? := some {}
    autoExpandDelayMs? := some 150
    autoCollapseDelayMs? := some 4000 }

/-- One default toast created on the pristine system. -/
def sysOne : Sys := (createToast {} sysEmpty).1

/-- The system after hovering the viewport of `sysOne`. -/
def sysHover : Sys := handleMouseEnter sysOne

/-- One toast created with an explicit `duration: null` (the "persistent"
marker) on the pristine system. -/
def sysNullDur : Sys := (createToast { duration? := some none } sysEmpty).1

/-- A widget view with content. -/
def demoView : SileoView := { description? := some "d" }

/-- A replacement payload for the staged-swap scenario. -/
def demoViewB : SileoView := { description? := some "e" }

/-- A widget view in loading state with content. -/
def loadingView : SileoView := { description? := some "d", state := .loading }

/-- An expanded widget showing `demoView`, with a committed expanded
height. -/
def demoWS : WidgetState :=
  { view := demoView, isExpanded := true, frozen := 90 }

/- ------------------------------ Frame lemmas ------------------------------ -/

theorem scheduleOne_frame (a : Sys) (t : ToastItem) :
    (scheduleOne a t).store = a.store ∧ (scheduleOne a t).counter = a.counter
    ∧ (scheduleOne a t).now = a.now ∧ (scheduleOne a t).hover = a.hover
    ∧ (scheduleOne a t).removals = a.removals := by
  unfold scheduleOne
  split
  · exact ⟨rfl, rfl, rfl, rfl, rfl⟩
  · split
    · exact ⟨rfl, rfl, rfl, rfl, rfl⟩
    · split
      · exact ⟨rfl, rfl, rfl, rfl, rfl⟩
      · exact ⟨rfl, rfl, rfl, rfl, rfl⟩

theorem foldl_scheduleOne_frame (items : List ToastItem) :
    ∀ a : Sys,
    (items.foldl scheduleOne a).store = a.store
    ∧ (items.foldl scheduleOne a).counter = a.counter
    ∧ (items.foldl scheduleOne a).now = a.now
    ∧ (items.foldl scheduleOne a).hover = a.hover
    ∧ (items.foldl scheduleOne a).removals = a.removals := by
  induction items with
  | nil => intro a; exact ⟨rfl, rfl, rfl, rfl, rfl⟩
  | cons t ts ih =>
    intro a
    have h1 := scheduleOne_frame a t
    have h2 := ih (scheduleOne a t)
    simp only [List.foldl_cons]
    exact ⟨h2.1.trans h1.1, h2.2.1.trans h1.2.1, h2.2.2.1.trans h1.2.2.1,
      h2.2.2.2.1.trans h1.2.2.2.1, h2.2.2.2.2.trans h1.2.2.2.2⟩

theorem scheduleTimers_frame (s : Sys) (items : List ToastItem) :
    (scheduleTimers s items).store = s.store
    ∧ (scheduleTimers s items).counter = s.counter
    ∧ (scheduleTimers s items).now = s.now
    ∧ (scheduleTimers s items).hover = s.hover
    ∧ (scheduleTimers s items).removals = s.removals := by
  unfold scheduleTimers
  split
  · exact ⟨rfl, rfl, rfl, rfl, rfl⟩
  · exact foldl_scheduleOne_frame items s

theorem timersEffect_frame (s : Sys) :
    (timersEffect s).store = s.store
    ∧ (timersEffect s).counter = s.counter
    ∧ (timersEffect s).now = s.now
    ∧ (timersEffect s).hover = s.hover
    ∧ (timersEffect s).removals = s.removals := by
  unfold timersEffect
  exact scheduleTimers_frame _ _

/- ------------------------- Scheduling shape lemmas ------------------------ -/

theorem scheduleOne_timers (a : Sys) (t : ToastItem) :
    (scheduleOne a t).timers = a.timers
    ∨ (t.exiting = false
       ∧ (a.timers.any (fun tm => decide (tm.key = timeoutKey t))) = false
       ∧ 0 < resolveDuration t.duration?
       ∧ (scheduleOne a t).timers =
          a.timers ++
            [{ key := timeoutKey t
               fire := a.now + resolveDuration t.duration? }]) := by
  unfold scheduleOne
  split
  · exact Or.inl rfl
  · rename_i hex
    split
    · exact Or.inl rfl
    · rename_i hany
      split
      · exact Or.inl rfl
      · rename_i hdur
        refine Or.inr ⟨by revert hex; cases t.exiting <;> simp, ?_, by omega, rfl⟩
        revert hany
        cases a.timers.any (fun tm => decide (tm.key = timeoutKey t)) <;> simp

theorem foldl_scheduleOne_inv (P : ToastId × ToastId → Prop)
    (items : List ToastItem) :
    ∀ a : Sys,
    ((a.timers.map (fun tm => tm.key)).Nodup) →
    (∀ tm ∈ a.timers, P tm.key) →
    (∀ t ∈ items, P (timeoutKey t)) →
    (((items.foldl scheduleOne a).timers.map (fun tm => tm.key)).Nodup
      ∧ ∀ tm ∈ (items.foldl scheduleOne a).timers, P tm.key) := by
  induction items with
  | nil => intro a h1 h2 _; exact ⟨h1, h2⟩
  | cons t ts ih =>
    intro a h1 h2 h3
    simp only [List.foldl_cons]
    have hstep : ((scheduleOne a t).timers.map (fun tm => tm.key)).Nodup
        ∧ ∀ tm ∈ (scheduleOne a t).timers, P tm.key := by
      rcases scheduleOne_timers a t with h | ⟨_, hany, _, h⟩
      · rw [h]; exact ⟨h1, h2⟩
      · rw [h]
        have hnotmem : (t.id, t.instanceId) ∉ a.timers.map (fun tm => tm.key) := by
          intro hmem
          rcases List.mem_map.mp hmem with ⟨tm, htm, hk⟩
          have : a.timers.any (fun tm => decide (tm.key = timeoutKey t)) = true := by
            refine List.any_eq_true.mpr ⟨tm, htm, ?_⟩
            simp [timeoutKey, hk]
          rw [hany] at this; exact Bool.false_ne_true this
        constructor
        · simp only [List.map_append, List.map_cons, List.map_nil]
          refine List.Nodup.append h1 (List.nodup_singleton _) ?_
          intro k hk1 hk2
          simp only [List.mem_singleton] at hk2
          subst hk2
          exact hnotmem hk1
        · intro tm htm
          rcases List.mem_append.mp htm with hin | hin
          · exact h2 tm hin
          · simp only [List.mem_singleton] at hin
            subst hin
            exact h3 t (List.mem_cons_self _ _)
    exact ih (scheduleOne a t) hstep.1 hstep.2
      (fun x hx => h3 x (List.mem_cons_of_mem _ hx))

theorem foldl_scheduleOne_sub (items : List ToastItem) :
    ∀ (a : Sys) (tm : DismissTimer), tm ∈ a.timers →
      tm ∈ (items.foldl scheduleOne a).timers := by
  induction items with
  | nil => intro a tm h; exact h
  | cons t ts ih =>
    intro a tm h
    simp only [List.foldl_cons]
    refine ih (scheduleOne a t) tm ?_
    rcases scheduleOne_timers a t with hh | ⟨_, _, _, hh⟩
    · rw [hh]; exact h
    · rw [hh]; exact List.mem_append_left _ h

/- --------------------------- Invariant lemmas ----------------------------- -/

theorem pruneTimers_sublist (ts : List ToastItem) (tms : List DismissTimer) :
    List.Sublist (pruneTimers ts tms) tms :=
  List.filter_sublist _

theorem scheduleTimers_inv (P : ToastId × ToastId → Prop) (s : Sys)
    (items : List ToastItem)
    (hnd : (s.timers.map (fun tm => tm.key)).Nodup)
    (hP : ∀ tm ∈ s.timers, P tm.key)
    (hitems : ∀ t ∈ items, P (timeoutKey t)) :
    (((scheduleTimers s items).timers.map (fun tm => tm.key)).Nodup
      ∧ ∀ tm ∈ (scheduleTimers s items).timers, P tm.key) := by
  unfold scheduleTimers
  split
  · exact ⟨hnd, hP⟩
  · exact foldl_scheduleOne_inv P items s hnd hP hitems

theorem invGood_effect (s : Sys)
    (hlen : s.store.toasts.length ≤ 1)
    (hnd : (s.timers.map (fun tm => tm.key)).Nodup)
    (hhov : s.hover = true → s.timers = [])
    (hb : instBound s) : InvGood (timersEffect s) := by
  have hframe := timersEffect_frame s
  have hsub : List.Sublist (pruneTimers s.store.toasts s.timers) s.timers :=
    pruneTimers_sublist _ _
  have hnd1 : ((pruneTimers s.store.toasts s.timers).map
      (fun tm => tm.key)).Nodup := hnd.sublist (hsub.map _)
  have hP1 : ∀ tm ∈ pruneTimers s.store.toasts s.timers,
      ∃ n, n ≤ s.counter ∧ tm.key.2 = ToastId.gen n :=
    fun tm htm => hb.2 tm (hsub.subset htm)
  have hmain := scheduleTimers_inv
    (fun k => ∃ n, n ≤ s.counter ∧ k.2 = ToastId.gen n)
    { s with timers := pruneTimers s.store.toasts s.timers }
    s.store.toasts hnd1 hP1
    (fun t ht => hb.1 t ht)
  refine ⟨?_, ?_, ?_, ?_, ?_⟩
  · rw [hframe.1]; exact hlen
  · exact hmain.1
  · intro hh
    rw [hframe.2.2.2.1] at hh
    have htempty : s.timers = [] := hhov hh
    have : pruneTimers s.store.toasts s.timers = [] := by
      rw [htempty]; rfl
    unfold timersEffect scheduleTimers
    rw [this]
    split
    · rfl
    · rename_i hhov2
      simp only [Sys.hover] at hhov2
      exact absurd hh hhov2
  · rw [hframe.1, hframe.2.1]
    exact hb.1
  · exact fun tm htm => by
      rw [hframe.2.1]
      exact hmain.2 tm htm

theorem resolveCreateId_counter (id? : Option ToastId)
    (prev? : Option ToastItem) (c : Nat) :
    (resolveCreateId id? prev? c).2 = c
    ∨ (resolveCreateId id? prev? c).2 = c + 1 := by
  cases id? with
  | some i => exact Or.inl rfl
  | none =>
    cases prev? with
    | some p => exact Or.inl rfl
    | none => exact Or.inr rfl

theorem invGood_create (o : InternalToastOptions) (s : Sys)
    (h : InvGood s) : InvGood (createToast o s).1 := by
  obtain ⟨h1, h2, h3, hb⟩ := h
  unfold createToast
  apply invGood_effect
  · simp
  · exact h2
  · exact h3
  · constructor
    · intro t ht
      simp only [List.mem_singleton] at ht
      subst ht
      exact ⟨(resolveCreateId (mergeOptions s.store.options? o).id?
          (createPrev (mergeOptions s.store.options? o).id?
            (s.store.toasts.filter (fun t => !t.exiting))) s.counter).2 + 1,
        le_refl _, rfl⟩
    · intro tm htm
      obtain ⟨n, hn, hk⟩ := hb.2 tm htm
      refine ⟨n, ?_, hk⟩
      rcases resolveCreateId_counter (mergeOptions s.store.options? o).id?
        (createPrev (mergeOptions s.store.options? o).id?
          (s.store.toasts.filter (fun t => !t.exiting))) s.counter with hc | hc <;>
        simp only [generateId, hc] <;> omega

theorem invGood_update (id : ToastId) (o : InternalToastOptions) (s : Sys)
    (h : InvGood s) : InvGood (updateToast id o s) := by
  obtain ⟨h1, h2, h3, hb⟩ := h
  unfold updateToast
  split
  · exact ⟨h1, h2, h3, hb⟩
  · apply invGood_effect
    · simpa using h1
    · exact h2
    · exact h3
    · constructor
      · intro t ht
        simp only [List.mem_map] at ht
        obtain ⟨t0, ht0, heq⟩ := ht
        by_cases hc : t0.id = id
        · rw [if_pos hc] at heq
          subst heq
          exact ⟨s.counter + 1, le_refl _, rfl⟩
        · rw [if_neg hc] at heq
          subst heq
          obtain ⟨n, hn, hk⟩ := hb.1 t0 ht0
          exact ⟨n, by simp only [generateId]; omega, hk⟩
      · intro tm htm
        obtain ⟨n, hn, hk⟩ := hb.2 tm htm
        exact ⟨n, by simp only [generateId]; omega, hk⟩

theorem invGood_dismiss (id : ToastId) (s : Sys) (h : InvGood s) :
    InvGood (dismissToast id s) := by
  obtain ⟨h1, h2, h3, hb⟩ := h
  unfold dismissToast
  split
  · exact ⟨h1, h2, h3, hb⟩
  · split
    · exact ⟨h1, h2, h3, hb⟩
    · have heff : InvGood (timersEffect
        { s with store := { s.store with
            toasts := s.store.toasts.map
              (fun t => if t.id = id then { t with exiting := true } else t) } }) := by
        apply invGood_effect
        · simpa using h1
        · exact h2
        · exact h3
        · constructor
          · intro t ht
            simp only [List.mem_map] at ht
            obtain ⟨t0, ht0, heq⟩ := ht
            obtain ⟨n, hn, hk⟩ := hb.1 t0 ht0
            by_cases hc : t0.id = id
            · rw [if_pos hc] at heq; subst heq; exact ⟨n, hn, hk⟩
            · rw [if_neg hc] at heq; subst heq; exact ⟨n, hn, hk⟩
          · exact hb.2
      exact ⟨heff.1, heff.2.1, heff.2.2.1, heff.2.2.2⟩

theorem invGood_clear (p? : Option ToastPosition) (s : Sys) (h : InvGood s) :
    InvGood (clearToasts p? s) := by
  obtain ⟨h1, h2, h3, hb⟩ := h
  unfold clearToasts
  apply invGood_effect
  · cases p? with
    | some p =>
      simp only []
      exact le_trans (List.length_filter_le _ _) h1
    | none => simp
  · exact h2
  · exact h3
  · constructor
    · intro t ht
      cases p? with
      | some p =>
        simp only [List.mem_filter] at ht
        exact hb.1 t ht.1
      | none => simp at ht
    · exact hb.2

theorem invGood_enter (s : Sys) (h : InvGood s) :
    InvGood (handleMouseEnter s) := by
  obtain ⟨h1, h2, h3, hb⟩ := h
  unfold handleMouseEnter
  split
  · exact ⟨h1, h2, h3, hb⟩
  · exact ⟨h1, List.nodup_nil, fun _ => rfl, hb.1, fun tm htm => absurd htm
      (List.not_mem_nil tm)⟩

theorem invGood_leave (s : Sys) (h : InvGood s) :
    InvGood (handleMouseLeave s) := by
  obtain ⟨h1, h2, h3, hb⟩ := h
  unfold handleMouseLeave
  split
  · have hframe := scheduleTimers_frame { s with hover := false } s.store.toasts
    have hmain := scheduleTimers_inv
      (fun k => ∃ n, n ≤ s.counter ∧ k.2 = ToastId.gen n)
      { s with hover := false } s.store.toasts h2 hb.2 (fun t ht => hb.1 t ht)
    refine ⟨?_, hmain.1, ?_, ?_, ?_⟩
    · rw [hframe.1]; exact h1
    · intro hh
      rw [hframe.2.2.2.1] at hh
      exact absurd hh (by simp)
    · rw [hframe.1, hframe.2.1]
      exact hb.1
    · intro tm htm
      rw [hframe.2.1]
      exact hmain.2 tm htm
  · exact ⟨h1, h2, h3, hb⟩

theorem invGood_fireT (tm : DismissTimer) (s : Sys) (h : InvGood s) :
    InvGood (fireTimer tm s) := by
  obtain ⟨h1, h2, h3, hb⟩ := h
  unfold fireTimer
  apply invGood_dismiss
  have hsub : List.Sublist (s.timers.erase tm) s.timers :=
    List.erase_sublist tm s.timers
  refine ⟨h1, h2.sublist (hsub.map _), ?_, hb.1, ?_⟩
  · intro hh
    rw [h3 hh]
    rfl
  · intro tm2 htm2
    exact hb.2 tm2 (hsub.subset htm2)

theorem invGood_fireR (id : ToastId) (ft : Int) (s : Sys) (h : InvGood s) :
    InvGood (fireRemoval id ft s) := by
  obtain ⟨h1, h2, h3, hb⟩ := h
  unfold fireRemoval
  apply invGood_effect
  · exact le_trans (List.length_filter_le _ _) h1
  · exact h2
  · exact h3
  · constructor
    · intro t ht
      simp only [List.mem_filter] at ht
      exact hb.1 t ht.1
    · exact hb.2

theorem invGood_init : InvGood {} :=
  ⟨Nat.zero_le 1, List.nodup_nil, fun _ => rfl,
    fun t ht => absurd ht (List.not_mem_nil t),
    fun tm htm => absurd htm (List.not_mem_nil tm)⟩

/-- Master invariant: every reachable system state satisfies `InvGood`. -/
theorem reachable_invGood {s : Sys} (h : Reachable s) : InvGood s := by
  induction h with
  | init => exact invGood_init
  | step hr hstep ih =>
    cases hstep with
    | create o s => exact invGood_create o _ ih
    | update id o s => exact invGood_update id o _ ih
    | dismiss id s => exact invGood_dismiss id _ ih
    | clearPos p? s => exact invGood_clear p? _ ih
    | enter s => exact invGood_enter _ ih
    | leave s => exact invGood_leave _ ih
    | fireT tm s h hle => exact invGood_fireT tm _ ih
    | fireR r s h hle => exact invGood_fireR r.1 r.2 _ ih

/- --------------------------- Store-shape lemmas --------------------------- -/

theorem createToast_toasts (o : InternalToastOptions) (s : Sys) :
    ((createToast o s).1).store.toasts = [createdItem o s] := by
  unfold createToast createdItem
  rw [(timersEffect_frame _).1]

theorem createToast_options (o : InternalToastOptions) (s : Sys) :
    ((createToast o s).1).store.options? = s.store.options? := by
  unfold createToast
  rw [(timersEffect_frame _).1]

theorem createToast_position (o : InternalToastOptions) (s : Sys) :
    ((createToast o s).1).store.position = s.store.position := by
  unfold createToast
  rw [(timersEffect_frame _).1]

theorem createToast_counter (o : InternalToastOptions) (s : Sys) :
    ((createToast o s).1).counter =
      (resolveCreateId (mergeOptions s.store.options? o).id?
        (createPrev (mergeOptions s.store.options? o).id?
          (s.store.toasts.filter (fun t => !t.exiting))) s.counter).2 + 1 := by
  unfold createToast
  rw [(timersEffect_frame _).2.1]
  rfl

theorem createToast_retId (o : InternalToastOptions) (s : Sys) :
    (createToast o s).2.1 =
      (resolveCreateId (mergeOptions s.store.options? o).id?
        (createPrev (mergeOptions s.store.options? o).id?
          (s.store.toasts.filter (fun t => !t.exiting))) s.counter).1 := rfl

theorem createdItem_id (o : InternalToastOptions) (s : Sys) :
    (createdItem o s).id =
      (resolveCreateId (mergeOptions s.store.options? o).id?
        (createPrev (mergeOptions s.store.options? o).id?
          (s.store.toasts.filter (fun t => !t.exiting))) s.counter).1 := rfl

theorem singleton_of_mem_len_le_one {α : Type} {l : List α} {a : α}
    (h : l.length ≤ 1) (hm : a ∈ l) : l = [a] := by
  match l with
  | [] => cases hm
  | [x] =>
    simp only [List.mem_singleton] at hm
    rw [hm]
  | x :: y :: r => simp at h

/- ------------------------------ Claim C4 ---------------------------------- -/

/-- Claim C4: for every id whose record is live (present and not exiting),
`dismiss(id)` sets the record's exiting flag synchronously, leaving every
other record (and the order) unchanged, and schedules the removal of that id
at exactly `EXIT_DURATION` after the dismissal; firing that removal deletes
precisely the records with that id, preserving the rest of the sequence. -/
theorem c4_dismiss_live (s : Sys) (id : ToastId) (t : ToastItem)
    (ht : s.store.toasts.find? (fun x => decide (x.id = id)) = some t)
    (hex : t.exiting = false) :
    (dismissToast id s).store.toasts
      = s.store.toasts.map
          (fun x => if x.id = id then { x with exiting := true } else x)
    ∧ (∀ x ∈ s.store.toasts, x.id ≠ id → x ∈ (dismissToast id s).store.toasts)
    ∧ (dismissToast id s).removals = s.removals ++ [(id, s.now + EXIT_DURATION)]
    ∧ (fireRemoval id (s.now + EXIT_DURATION) (dismissToast id s)).store.toasts
        = ((dismissToast id s).store.toasts).filter
            (fun x => decide (x.id ≠ id)) := by
  have htoasts : (dismissToast id s).store.toasts
      = s.store.toasts.map
          (fun x => if x.id = id then { x with exiting := true } else x) := by
    unfold dismissToast
    rw [ht]
    simp only [hex, Bool.false_eq_true, if_false]
    rw [(timersEffect_frame _).1]
  refine ⟨htoasts, ?_, ?_, ?_⟩
  · intro x hx hne
    rw [htoasts]
    refine List.mem_map.mpr ⟨x, hx, ?_⟩
    rw [if_neg hne]
  · unfold dismissToast
    rw [ht]
    simp only [hex, Bool.false_eq_true, if_false]
    rw [(timersEffect_frame _).2.2.2.2]
  · unfold fireRemoval
    rw [(timersEffect_frame _).1]

/-- Claim C4 witness: dismissing the default toast of `sysOne` schedules its
removal exactly 600 ms later and flags it exiting in place. -/
theorem c4_witness :
    (dismissToast (ToastId.gen 1) sysOne).removals = [(ToastId.gen 1, 600)]
    ∧ (dismissToast (ToastId.gen 1) sysOne).store.toasts
        = [{ demoToast with exiting := true }] := by
  have h := c4_dismiss_live sysOne (ToastId.gen 1) demoToast (by decide) rfl
  exact ⟨h.2.2.1.trans (by decide), h.1.trans (by decide)⟩

/- ------------------------------ Claim C5 ---------------------------------- -/

/-- Claim C5: `dismiss(id)` for an unknown or already-exiting id leaves the
whole system (store, timers, pending removals) unchanged, and `update(id, o)`
for an unknown id leaves it unchanged; both are total functions, so neither
can throw. -/
theorem c5_noop (s : Sys) (id : ToastId) (o : InternalToastOptions) :
    ((∀ t ∈ s.store.toasts, t.id = id → t.exiting = true) →
      dismissToast id s = s)
    ∧ (s.store.toasts.find? (fun t => decide (t.id = id)) = none →
      updateToast id o s = s) := by
  constructor
  · intro hall
    unfold dismissToast
    cases hfind : s.store.toasts.find? (fun t => decide (t.id = id)) with
    | none => rfl
    | some t =>
      have hmem : t ∈ s.store.toasts := List.mem_of_find?_eq_some hfind
      have hp : t.id = id := by
        have := List.find?_some hfind
        simpa using this
      have hexit : t.exiting = true := hall t hmem hp
      simp only [hexit, if_true]
  · intro hnone
    unfold updateToast
    rw [hnone]

/-- Claim C5 witness: dismissing and updating an id absent from the pristine
store are both no-ops. -/
theorem c5_witness :
    dismissToast (ToastId.user "x") sysEmpty = sysEmpty
    ∧ updateToast (ToastId.user "x") {} sysEmpty = sysEmpty :=
  ⟨(c5_noop sysEmpty (ToastId.user "x") {}).1
      (fun t ht => absurd ht (List.not_mem_nil t)),
   (c5_noop sysEmpty (ToastId.user "x") {}).2 (by decide)⟩

/- ------------------------------ Claim C10 --------------------------------- -/

theorem resolveAutopilot_some (opts : InternalToastOptions) (d : Int) :
    resolveAutopilot opts (some d) =
      if opts.autopilot? = some (.flag false) then (none, none)
      else if d ≤ 0 then (none, none)
      else
        (some (clampI d (((match opts.autopilot? with
              | some (.cfg e _) => e
              | _ => none) : Option Int).getD AUTO_EXPAND_DELAY)),
         some (clampI d (((match opts.autopilot? with
              | some (.cfg _ c2) => c2
              | _ => none) : Option Int).getD AUTO_COLLAPSE_DELAY))) := rfl

theorem autoDelaysOk_resolve (opts : InternalToastOptions) (d : Int) :
    AutoDelaysOk opts.autopilot? d (resolveAutopilot opts (some d)).1
      (resolveAutopilot opts (some d)).2 := by
  have hub : ∀ v : Int, clampI d v ≤ d := fun v => min_le_left _ _
  unfold AutoDelaysOk
  rw [resolveAutopilot_some]
  by_cases hflag : opts.autopilot? = some (.flag false)
  · rw [if_pos hflag]
    exact ⟨⟨fun _ => Or.inl hflag, fun _ => ⟨rfl, rfl⟩⟩,
      fun v hv => Option.noConfusion hv, fun v hv => Option.noConfusion hv,
      fun cfgE cfgC he _ => by rw [hflag] at he; cases he⟩
  · rw [if_neg hflag]
    by_cases hd : d ≤ 0
    · rw [if_pos hd]
      exact ⟨⟨fun _ => Or.inr hd, fun _ => ⟨rfl, rfl⟩⟩,
        fun v hv => Option.noConfusion hv, fun v hv => Option.noConfusion hv,
        fun cfgE cfgC _ hnd => absurd hd hnd⟩
    · rw [if_neg hd]
      have hlb : ∀ v : Int, 0 ≤ clampI d v :=
        fun v => le_min (by omega) (le_max_left 0 v)
      refine ⟨⟨fun hcon => absurd hcon.1 (fun hc => Option.noConfusion hc),
          fun hcon => ?_⟩, ?_, ?_, ?_⟩
      · rcases hcon with hcon | hcon
        · exact absurd hcon hflag
        · exact absurd hcon hd
      · intro v hv
        simp only [Option.some.injEq] at hv
        rw [hv.symm]
        exact ⟨hlb _, hub _⟩
      · intro v hv
        simp only [Option.some.injEq] at hv
        rw [hv.symm]
        exact ⟨hlb _, hub _⟩
      · intro cfgE cfgC he _
        rw [he]
        exact ⟨rfl, rfl⟩

/-- Claim C10: every record produced by `createToast`, and every record
`updateToast` newly produces, has its resolved autopilot delays both absent
exactly when autopilot is disabled or the resolved duration is non-positive
(the `??`-resolution turns an explicit `null` duration into the positive
default, so a null resolved duration cannot occur), and otherwise each delay
is the configured override clamped into `[0, duration]`. -/
theorem c10_autopilot (o : InternalToastOptions) (s : Sys) (id2 : ToastId) :
    (∀ t ∈ ((createToast o s).1).store.toasts,
       AutoDelaysOk t.autopilot? (resolveDuration t.duration?)
         t.autoExpandDelayMs? t.autoCollapseDelayMs?)
    ∧ (∀ t ∈ (updateToast id2 o s).store.toasts,
        t ∈ s.store.toasts
        ∨ AutoDelaysOk t.autopilot? (resolveDuration t.duration?)
            t.autoExpandDelayMs? t.autoCollapseDelayMs?) := by
  constructor
  · intro t ht
    rw [createToast_toasts] at ht
    simp only [List.mem_singleton] at ht
    subst ht
    exact autoDelaysOk_resolve (mergeOptions s.store.options? o)
      (resolveDuration (mergeOptions s.store.options? o).duration?)
  · intro t ht
    unfold updateToast at ht
    cases hfind : s.store.toasts.find? (fun x => decide (x.id = id2)) with
    | none =>
      rw [hfind] at ht
      exact Or.inl ht
    | some ex =>
      rw [hfind] at ht
      rw [(timersEffect_frame _).1] at ht
      simp only [List.mem_map] at ht
      obtain ⟨t0, ht0, heq⟩ := ht
      by_cases hc : t0.id = id2
      · rw [if_pos hc] at heq
        subst heq
        exact Or.inr (autoDelaysOk_resolve (mergeOptions s.store.options? o)
          (resolveDuration (mergeOptions s.store.options? o).duration?))
      · rw [if_neg hc] at heq
        subst heq
        exact Or.inl ht0

/-- Claim C10 witness: the default record of `sysOne` instantiates the delay
invariant; its delays are present since autopilot is on and the resolved
duration is the positive default. -/
theorem c10_witness :
    (demoToast.autoExpandDelayMs? = none
      ∧ demoToast.autoCollapseDelayMs? = none)
    ↔ (demoToast.autopilot? = some (.flag false)
      ∨ resolveDuration demoToast.duration? ≤ 0) :=
  ((c10_autopilot {} sysEmpty (ToastId.gen 1)).1 demoToast (by decide)).1

/- ------------------------------ Claim C6 ---------------------------------- -/

theorem foldl_renderHeights_frozen (hd : Bool) (chs : List Int) :
    ∀ frozen : Int,
      chs.foldl (fun f c2 => (renderHeights f hd c2 false).1) frozen
        = frozen := by
  induction chs with
  | nil => intro frozen; rfl
  | cons c cs ih =>
    intro frozen
    simp only [List.foldl_cons]
    exact ih frozen

/-- Claim C6: while a widget is collapsed (`open = false`), the rendered
expanded height equals the frozen value and the frozen value is not updated,
whatever the current content measurement is — over any sequence of collapsed
renders; the frozen value is (re)committed to `rawExpanded` exactly on open
renders.  Consequently, a content replacement received while open stages the
payload, forces a collapse, and keeps the committed view, so every render
until the staged swap commits shows exactly the previously committed expanded
height (in particular, never a smaller one). -/
theorem c6_frozen_height (frozen : Int) (hd : Bool) (ch : Int)
    (ws : WidgetState) (rk : ToastId) (next : SileoView) (chs : List Int) :
    ((renderHeights frozen hd ch false).2 = frozen
      ∧ (renderHeights frozen hd ch false).1 = frozen)
    ∧ (renderHeights frozen hd ch true).1 = rawExpandedOf hd ch
    ∧ (chs.foldl (fun f c2 => (renderHeights f hd c2 false).1) frozen = frozen)
    ∧ (openOf ws.view ws.isExpanded = true → ws.lastRefreshKey? ≠ some rk →
        (refreshEffect ws (some rk) next).view = ws.view
        ∧ (refreshEffect ws (some rk) next).pending? = some next
        ∧ (refreshEffect ws (some rk) next).isExpanded = false
        ∧ (refreshEffect ws (some rk) next).frozen = ws.frozen
        ∧ ∀ ch2 : Int,
            (renderHeights (refreshEffect ws (some rk) next).frozen
              (hasDescOf (refreshEffect ws (some rk) next).view) ch2
              (openOf (refreshEffect ws (some rk) next).view
                (refreshEffect ws (some rk) next).isExpanded)).2 = ws.frozen) := by
  refine ⟨⟨rfl, rfl⟩, rfl, foldl_renderHeights_frozen hd chs frozen, ?_⟩
  intro hopen hrk
  have heff : refreshEffect ws (some rk) next =
      { ws with
        lastRefreshKey? := some rk
        pending? := some next
        isExpanded := false } := by
    show (if ws.lastRefreshKey? = some rk then ws
      else if openOf ws.view ws.isExpanded then
        { ws with
          lastRefreshKey? := some rk
          pending? := some next
          isExpanded := false }
      else
        { ws with
          lastRefreshKey? := some rk
          pending? := none
          view := next }) = _
    rw [if_neg hrk, if_pos hopen]
  rw [heff]
  refine ⟨rfl, rfl, rfl, rfl, ?_⟩
  intro ch2
  have hopenf : openOf ws.view false = false := by
    unfold openOf
    simp
  simp only [hopenf]
  rfl

/-- Claim C6 witness: replacing content while `demoWS` is expanded collapses
it, keeps the committed view and frozen height 90, and a subsequent collapsed
render with a much larger content measurement still reports height 90. -/
theorem c6_witness :
    (refreshEffect demoWS (some (ToastId.gen 7)) demoViewB).isExpanded = false
    ∧ (renderHeights (refreshEffect demoWS (some (ToastId.gen 7)) demoViewB).frozen
        (hasDescOf (refreshEffect demoWS (some (ToastId.gen 7)) demoViewB).view) 500
        (openOf (refreshEffect demoWS (some (ToastId.gen 7)) demoViewB).view
          (refreshEffect demoWS (some (ToastId.gen 7)) demoViewB).isExpanded)).2
      = 90 := by
  have h := (c6_frozen_height 90 true 0 demoWS (ToastId.gen 7) demoViewB []).2.2.2
    (by decide) (by decide)
  exact ⟨h.2.2.1, h.2.2.2.2 500⟩

/- ------------------------------ Claim C7 ---------------------------------- -/

/-- Claim C7: a widget whose committed view is in `loading` state is never
open — not even after a hover-in (`handleEnter` may set `isExpanded` but
`open` stays false) — and its `allowExpand` is false; whenever `allowExpand`
is false (in particular when the exclusive-expandable ownership
`canExpand`/`interruptKey` designates another notification), the auto
expand/collapse effect schedules no auto-expand timer and forces the widget
collapsed. -/
theorem c7_loading_blocked (v : SileoView) (isExpanded : Bool)
    (ce : Option Bool) (ik : Option ToastId) (idX : ToastId)
    (ed cd : Option Int) (ex : Bool) :
    (v.state = .loading →
       openOf v isExpanded = false
       ∧ openOf v (handleEnter (hasDescOf v) isExpanded) = false
       ∧ allowExpandOf v ce ik idX = false)
    ∧ (allowExpandOf v ce ik idX = false →
       (autoEffect (hasDescOf v) ex (allowExpandOf v ce ik idX) ed cd
          isExpanded).2.1 = false
       ∧ openOf v (autoEffect (hasDescOf v) ex (allowExpandOf v ce ik idX) ed
          cd isExpanded).1 = false)
    ∧ (ce = some false → allowExpandOf v ce ik idX = false)
    ∧ (∀ k, ce = none → ik = some k → k.truthy = true → k ≠ idX →
        allowExpandOf v ce ik idX = false) := by
  refine ⟨?_, ?_, ?_, ?_⟩
  · intro hload
    refine ⟨?_, ?_, ?_⟩
    · unfold openOf
      simp [hload]
    · unfold openOf
      simp [hload]
    · unfold allowExpandOf
      rw [if_pos hload]
  · intro hallow
    rw [hallow]
    cases hdesc : hasDescOf v with
    | false =>
      constructor
      · simp [autoEffect]
      · simp [openOf, hdesc]
    | true =>
      constructor
      · simp [autoEffect]
      · simp [openOf, autoEffect]
  · intro hce
    unfold allowExpandOf
    rw [hce]
    split
    · rfl
    · rfl
  · intro k hce hik htr hne
    unfold allowExpandOf
    rw [hce, hik]
    split
    · rfl
    · simp only [htr, if_true]
      simp [hne]

/-- Claim C7 witness: a hovered loading widget with content is still not
open. -/
theorem c7_witness :
    openOf loadingView (handleEnter (hasDescOf loadingView) false) = false :=
  ((c7_loading_blocked loadingView false none none (ToastId.gen 1) none none
    false).1 rfl).2.1

/- ------------------------------ Claim C1 ---------------------------------- -/

/-- Claim C1 counterexample: on `sysOne` (one live record, no explicit id
supplied, so the claim requires plain append preserving the old record) a
further create call yields a store that does not contain the pre-existing
record: `store.update(() => [item])` (toast.tsx 160) discards it. -/
theorem c1_counterexample :
    ({} : InternalToastOptions).id? = none
    ∧ sysOne.store.toasts ≠ []
    ∧ sysOne.store.toasts.all
        (fun t => ((createToast {} sysOne).1).store.toasts.contains t) = false
    ∧ ((createToast {} sysOne).1).store.toasts.length = 1 := by
  refine ⟨rfl, ?_, ?_, ?_⟩ <;> decide

/-- Claim C1 (amended): every create call replaces the whole store with the
single new record (previous records are discarded, not kept); the new record
is not exiting and carries a freshly generated instance id (distinct from
every instance id already in the store); its stable id is the explicit id
when one is supplied, else the id of the most recent live record when one
exists, else a fresh generated id. -/
theorem c1_create_replaces (o : InternalToastOptions) (s : Sys) :
    ((createToast o s).1).store.toasts = [createdItem o s]
    ∧ (createdItem o s).exiting = false
    ∧ (createdItem o s).instanceId =
        ToastId.gen ((resolveCreateId (mergeOptions s.store.options? o).id?
          (createPrev (mergeOptions s.store.options? o).id?
            (s.store.toasts.filter (fun t => !t.exiting))) s.counter).2 + 1)
    ∧ (instBound s →
        (createdItem o s).instanceId ∉
          s.store.toasts.map (fun t => t.instanceId))
    ∧ (∀ i, o.id? = some i → (createdItem o s).id = i)
    ∧ (o.id? = none →
        ∀ p, (s.store.toasts.filter (fun t => !t.exiting)).getLast? = some p →
          (createdItem o s).id = p.id)
    ∧ (o.id? = none →
        (s.store.toasts.filter (fun t => !t.exiting)) = [] →
          (createdItem o s).id = ToastId.gen (s.counter + 1)) := by
  have hid : (mergeOptions s.store.options? o).id? = o.id? := rfl
  refine ⟨createToast_toasts o s, rfl, rfl, ?_, ?_, ?_, ?_⟩
  · intro hb hmem
    simp only [List.mem_map] at hmem
    obtain ⟨t, ht, heq⟩ := hmem
    obtain ⟨n, hn, hg⟩ := hb.1 t ht
    rw [hg] at heq
    have hinst : (createdItem o s).instanceId =
        ToastId.gen ((resolveCreateId (mergeOptions s.store.options? o).id?
          (createPrev (mergeOptions s.store.options? o).id?
            (s.store.toasts.filter (fun t => !t.exiting))) s.counter).2 + 1) :=
      rfl
    rw [hinst] at heq
    have := ToastId.gen.inj heq
    rcases resolveCreateId_counter (mergeOptions s.store.options? o).id?
      (createPrev (mergeOptions s.store.options? o).id?
        (s.store.toasts.filter (fun t => !t.exiting))) s.counter with hc | hc <;>
      rw [hc] at this <;> omega
  · intro i hi
    rw [createdItem_id, hid, hi]
    rfl
  · intro hnone p hp
    rw [createdItem_id, hid, hnone]
    show (resolveCreateId none
      ((s.store.toasts.filter (fun t => !t.exiting)).getLast?) s.counter).1
      = p.id
    rw [hp]
    rfl
  · intro hnone hemp
    rw [createdItem_id, hid, hnone]
    show (resolveCreateId none
      ((s.store.toasts.filter (fun t => !t.exiting)).getLast?) s.counter).1
      = ToastId.gen (s.counter + 1)
    rw [hemp]
    rfl

/-- Claim C1 witness: the create call of the counterexample keeps the stable
id of the previous most recent live record (`ToastId.gen 1`) while minting a
fresh instance id. -/
theorem c1_witness :
    (createdItem {} sysOne).id = demoToast.id
    ∧ (createdItem {} sysOne).instanceId ∉
        sysOne.store.toasts.map (fun t => t.instanceId) :=
  ⟨(c1_create_replaces {} sysOne).2.2.2.2.2.1 rfl demoToast (by decide),
   (c1_create_replaces {} sysOne).2.2.2.1
     ⟨fun t ht => by
        have : t = demoToast := by
          have hts : sysOne.store.toasts = [demoToast] := by decide
          rw [hts] at ht
          simpa using ht
        rw [this]
        exact ⟨2, by decide, rfl⟩,
      fun tm htm => by
        have hts : sysOne.timers =
            [{ key := (ToastId.gen 1, ToastId.gen 2), fire := 6000 }] := by
          decide
        rw [hts] at htm
        have : tm = { key := (ToastId.gen 1, ToastId.gen 2), fire := 6000 } := by
          simpa using htm
        rw [this]
        exact ⟨2, by decide, rfl⟩⟩⟩

/- ------------------------------ Claim C2 ---------------------------------- -/

/-- Claim C2, failing half, evaluated: a toast created with an explicit
`duration: null` (stored as `some none`) nevertheless receives a dismiss
timer, because `const dur = item.duration ?? DEFAULT_DURATION`
(toast.tsx 289) turns `null` into the default before the `dur === null`
guard (toast.tsx 290) can see it — that guard is unreachable.  Letting the
timer and the subsequent exit-removal fire empties the store: the
"persistent" toast is auto-removed at `DEFAULT_DURATION + EXIT_DURATION`,
contradicting the claim (and the guard's evident intent) that a null/0
duration is never auto-removed. -/
theorem c2_null_duration_scheduled :
    sysNullDur.store.toasts.map (fun t => t.duration?) = [some none]
    ∧ sysNullDur.timers =
        [{ key := (ToastId.gen 1, ToastId.gen 2), fire := DEFAULT_DURATION }]
    ∧ (fireRemoval (ToastId.gen 1) (DEFAULT_DURATION + EXIT_DURATION)
        (fireTimer { key := (ToastId.gen 1, ToastId.gen 2),
                     fire := DEFAULT_DURATION } sysNullDur)).store.toasts
      = [] := by
  refine ⟨?_, ?_, ?_⟩ <;> decide

/- ------------------------------ Claim C3 ---------------------------------- -/

theorem updateToast_single (id : ToastId) (o : InternalToastOptions)
    (s : Sys) (t : ToastItem) (hts : s.store.toasts = [t]) (hid : t.id = id) :
    (updateToast id o s).store.toasts
      = [buildItem (mergeOptions s.store.options? o) id
          (ToastId.gen (s.counter + 1))
          (some ((fb (mergeOptions s.store.options? o).position?
            t.position?).getD s.store.position))
          (resolveAutopilot (mergeOptions s.store.options? o)
            (some (resolveDuration
              (mergeOptions s.store.options? o).duration?)))] := by
  have hfind : s.store.toasts.find? (fun x => decide (x.id = id)) = some t := by
    rw [hts]
    simp [List.find?, hid]
  unfold updateToast
  rw [hfind, (timersEffect_frame _).1]
  simp only [hts, List.map_cons, List.map_nil, if_pos hid]
  rfl

/-- Claim C3: `sileo.promise` synchronously creates a record in `loading`
state whose stored duration is the explicit `null` ("persistent") marker,
returned under the stable id it reports; settling the promise updates that
record in place — same stable id — to `action` state when an action branch
is configured, `success` otherwise, and `error` on rejection, with the
replacement options taken from the static branch object or computed by
applying the configured function to the settled value (here witnessed by the
title and description fields, merged over the store defaults); the promise
handed back to the caller still carries the original resolution or
rejection. -/
theorem c3_promise (A E : Type) (popts : ToastPromiseOptions A E) (s : Sys)
    (outcome : Outcome A E) :
    (∃ t : ToastItem,
      ((promiseStart popts s).1).store.toasts = [t]
      ∧ t.id = (promiseStart popts s).2
      ∧ t.state? = some .loading
      ∧ t.duration? = some none
      ∧ t.title? = fb popts.loadingTitle? ((s.store.options?.getD {}).title?))
    ∧ (∃ u : ToastItem,
      (promiseSettle popts (promiseStart popts s).2 outcome
          (promiseStart popts s).1).store.toasts = [u]
      ∧ u.id = (promiseStart popts s).2
      ∧ u.state? = some (settledState popts outcome)
      ∧ u.title? = fb (settledOptions popts outcome).title?
          ((s.store.options?.getD {}).title?)
      ∧ u.description? = fb (settledOptions popts outcome).description?
          ((s.store.options?.getD {}).description?))
    ∧ promiseResult outcome = outcome := by
  refine ⟨⟨createdItem
      { title? := popts.loadingTitle?, icon? := popts.loadingIcon?,
        state? := some .loading, duration? := some none } s,
      createToast_toasts _ s, rfl, rfl, rfl, rfl⟩, ?_, rfl⟩
  set lo : InternalToastOptions :=
    { title? := popts.loadingTitle?, icon? := popts.loadingIcon?,
      state? := some .loading, duration? := some none } with hlo
  have hs1 : (promiseStart popts s).1 = (createToast lo s).1 := rfl
  have hpid : (promiseStart popts s).2 = (createToast lo s).2.1 := rfl
  have hts : ((promiseStart popts s).1).store.toasts = [createdItem lo s] := by
    rw [hs1]; exact createToast_toasts lo s
  have hidm : (createdItem lo s).id = (promiseStart popts s).2 := by
    rw [hpid, createdItem_id, createToast_retId]
  have hopts : ((promiseStart popts s).1).store.options? = s.store.options? := by
    rw [hs1]; exact createToast_options lo s
  have hpos : ((promiseStart popts s).1).store.position = s.store.position := by
    rw [hs1]; exact createToast_position lo s
  cases outcome with
  | resolved a =>
    cases hac : popts.action? with
    | some br =>
      have hset : (promiseSettle popts (promiseStart popts s).2
          (Outcome.resolved a) (promiseStart popts s).1).store.toasts
          = [buildItem (mergeOptions ((promiseStart popts s).1).store.options?
              { toToastOptions := resolveBranch br a
                state? := some .action, id? := some (promiseStart popts s).2 })
              (promiseStart popts s).2
              (ToastId.gen (((promiseStart popts s).1).counter + 1))
              (some ((fb (mergeOptions
                  ((promiseStart popts s).1).store.options?
                  { toToastOptions := resolveBranch br a
                    state? := some .action
                    id? := some (promiseStart popts s).2 }).position?
                (createdItem lo s).position?).getD
                  ((promiseStart popts s).1).store.position))
              (resolveAutopilot (mergeOptions
                  ((promiseStart popts s).1).store.options?
                  { toToastOptions := resolveBranch br a
                    state? := some .action
                    id? := some (promiseStart popts s).2 })
                (some (resolveDuration (mergeOptions
                  ((promiseStart popts s).1).store.options?
                  { toToastOptions := resolveBranch br a
                    state? := some .action
                    id? := some (promiseStart popts s).2 }).duration?)))] := by
        unfold promiseSettle
        rw [hac]
        exact updateToast_single _ _ _ _ hts hidm
      refine ⟨_, hset, rfl, ?_, ?_, ?_⟩
      · simp only [settledState, hac]
        rfl
      · simp only [settledOptions, hac]
        rw [hopts]
        rfl
      · simp only [settledOptions, hac]
        rw [hopts]
        rfl
    | none =>
      have hset : (promiseSettle popts (promiseStart popts s).2
          (Outcome.resolved a) (promiseStart popts s).1).store.toasts
          = [buildItem (mergeOptions ((promiseStart popts s).1).store.options?
              { toToastOptions := resolveBranch popts.success a
                state? := some .success, id? := some (promiseStart popts s).2 })
              (promiseStart popts s).2
              (ToastId.gen (((promiseStart popts s).1).counter + 1))
              (some ((fb (mergeOptions
                  ((promiseStart popts s).1).store.options?
                  { toToastOptions := resolveBranch popts.success a
                    state? := some .success
                    id? := some (promiseStart popts s).2 }).position?
                (createdItem lo s).position?).getD
                  ((promiseStart popts s).1).store.position))
              (resolveAutopilot (mergeOptions
                  ((promiseStart popts s).1).store.options?
                  { toToastOptions := resolveBranch popts.success a
                    state? := some .success
                    id? := some (promiseStart popts s).2 })
                (some (resolveDuration (mergeOptions
                  ((promiseStart popts s).1).store.options?
                  { toToastOptions := resolveBranch popts.success a
                    state? := some .success
                    id? := some (promiseStart popts s).2 }).duration?)))] := by
        unfold promiseSettle
        rw [hac]
        exact updateToast_single _ _ _ _ hts hidm
      refine ⟨_, hset, rfl, ?_, ?_, ?_⟩
      · simp only [settledState, hac]
        rfl
      · simp only [settledOptions, hac]
        rw [hopts]
        rfl
      · simp only [settledOptions, hac]
        rw [hopts]
        rfl
  | rejected e =>
    have hset : (promiseSettle popts (promiseStart popts s).2
        (Outcome.rejected e) (promiseStart popts s).1).store.toasts
        = [buildItem (mergeOptions ((promiseStart popts s).1).store.options?
            { toToastOptions := resolveBranch popts.error e
              state? := some .error, id? := some (promiseStart popts s).2 })
            (promiseStart popts s).2
            (ToastId.gen (((promiseStart popts s).1).counter + 1))
            (some ((fb (mergeOptions
                ((promiseStart popts s).1).store.options?
                { toToastOptions := resolveBranch popts.error e
                  state? := some .error
                  id? := some (promiseStart popts s).2 }).position?
              (createdItem lo s).position?).getD
                ((promiseStart popts s).1).store.position))
            (resolveAutopilot (mergeOptions
                ((promiseStart popts s).1).store.options?
                { toToastOptions := resolveBranch popts.error e
                  state? := some .error
                  id? := some (promiseStart popts s).2 })
              (some (resolveDuration (mergeOptions
                ((promiseStart popts s).1).store.options?
                { toToastOptions := resolveBranch popts.error e
                  state? := some .error
                  id? := some (promiseStart popts s).2 }).duration?)))] := by
      unfold promiseSettle
      exact updateToast_single _ _ _ _ hts hidm
    refine ⟨_, hset, rfl, rfl, ?_, ?_⟩
    · simp only [settledOptions]
      rw [hopts]
      rfl
    · simp only [settledOptions]
      rw [hopts]
      rfl

/- ------------------------------ Claim C8 ---------------------------------- -/

theorem pruneTimers_nil_of_fresh (item : ToastItem) (tms : List DismissTimer)
    (h : ∀ tm ∈ tms, tm.key ≠ timeoutKey item) :
    pruneTimers [item] tms = [] := by
  unfold pruneTimers
  rw [List.filter_eq_nil_iff]
  intro tm htm
  simp only [List.any_cons, List.any_nil, Bool.or_false, decide_eq_true_eq]
  exact fun he => (h tm htm) he.symm

theorem timersEffect_single (s2 : Sys) (item : ToastItem)
    (hts : s2.store.toasts = [item]) (hex : item.exiting = false)
    (hpr : pruneTimers s2.store.toasts s2.timers = []) :
    (timersEffect s2).timers =
      if s2.hover = true then ([] : List DismissTimer)
      else if 0 < resolveDuration item.duration? then
        [{ key := timeoutKey item
           fire := s2.now + resolveDuration item.duration? }]
      else [] := by
  unfold timersEffect
  rw [hpr, hts]
  unfold scheduleTimers
  by_cases hh : s2.hover = true
  · simp only [hh, if_true]
  · have hh2 : s2.hover = false := by
      revert hh
      cases s2.hover <;> simp
    simp only [hh2, Bool.false_eq_true, if_false, List.foldl_cons,
      List.foldl_nil]
    unfold scheduleOne
    simp only [hex, Bool.false_eq_true, if_false, List.any_nil]
    by_cases hd : resolveDuration item.duration? ≤ 0
    · rw [if_pos hd, if_neg (by omega)]
    · rw [if_neg hd, if_pos (by omega)]
      rfl

theorem updateToast_single_timers (o : InternalToastOptions) (s : Sys)
    (t : ToastItem) (hts : s.store.toasts = [t])
    (hb2 : ∀ tm ∈ s.timers, ∃ n, n ≤ s.counter ∧ tm.key.2 = ToastId.gen n) :
    (updateToast t.id o s).timers =
      if s.hover = true then ([] : List DismissTimer)
      else if 0 < resolveDuration (mergeOptions s.store.options? o).duration?
      then [{ key := (t.id, ToastId.gen (s.counter + 1))
              fire := s.now + resolveDuration
                (mergeOptions s.store.options? o).duration? }]
      else [] := by
  have hfind : s.store.toasts.find? (fun x => decide (x.id = t.id)) = some t := by
    rw [hts]
    simp [List.find?]
  unfold updateToast
  rw [hfind]
  have hmap : s.store.toasts.map
      (fun x => if x.id = t.id then buildItem (mergeOptions s.store.options? o)
        t.id (generateId s.counter).1
        (some ((fb (mergeOptions s.store.options? o).position?
          t.position?).getD s.store.position))
        (resolveAutopilot (mergeOptions s.store.options? o)
          (some (resolveDuration (mergeOptions s.store.options? o).duration?)))
        else x)
      = [buildItem (mergeOptions s.store.options? o)
          t.id (generateId s.counter).1
          (some ((fb (mergeOptions s.store.options? o).position?
            t.position?).getD s.store.position))
          (resolveAutopilot (mergeOptions s.store.options? o)
            (some (resolveDuration
              (mergeOptions s.store.options? o).duration?)))] := by
    rw [hts]
    simp
  rw [show (generateId s.counter).1 = ToastId.gen (s.counter + 1) from rfl] at hmap
  have heq := timersEffect_single
    { s with
      counter := (generateId s.counter).2
      store := { s.store with
        toasts := s.store.toasts.map
          (fun x => if x.id = t.id then buildItem
            (mergeOptions s.store.options? o) t.id (ToastId.gen (s.counter + 1))
            (some ((fb (mergeOptions s.store.options? o).position?
              t.position?).getD s.store.position))
            (resolveAutopilot (mergeOptions s.store.options? o)
              (some (resolveDuration
                (mergeOptions s.store.options? o).duration?)))
            else x) } }
    (buildItem (mergeOptions s.store.options? o) t.id
      (ToastId.gen (s.counter + 1))
      (some ((fb (mergeOptions s.store.options? o).position?
        t.position?).getD s.store.position))
      (resolveAutopilot (mergeOptions s.store.options? o)
        (some (resolveDuration (mergeOptions s.store.options? o).duration?))))
    (by exact hmap) rfl
    (by
      rw [show ({ s with
        counter := (generateId s.counter).2
        store := { s.store with
          toasts := s.store.toasts.map
            (fun x => if x.id = t.id then buildItem
              (mergeOptions s.store.options? o) t.id
              (ToastId.gen (s.counter + 1))
              (some ((fb (mergeOptions s.store.options? o).position?
                t.position?).getD s.store.position))
              (resolveAutopilot (mergeOptions s.store.options? o)
                (some (resolveDuration
                  (mergeOptions s.store.options? o).duration?)))
              else x) } } : Sys).store.toasts
        = s.store.toasts.map
            (fun x => if x.id = t.id then buildItem
              (mergeOptions s.store.options? o) t.id
              (ToastId.gen (s.counter + 1))
              (some ((fb (mergeOptions s.store.options? o).position?
                t.position?).getD s.store.position))
              (resolveAutopilot (mergeOptions s.store.options? o)
                (some (resolveDuration
                  (mergeOptions s.store.options? o).duration?)))
              else x) from rfl, hmap]
      apply pruneTimers_nil_of_fresh
      intro tm htm
      obtain ⟨n, hn, hk⟩ := hb2 tm htm
      intro hkey
      have : tm.key.2 = ToastId.gen (s.counter + 1) := by
        rw [hkey]
        rfl
      rw [hk] at this
      have := ToastId.gen.inj this
      omega)
  exact heq

/-- Claim C8: in every reachable system state the Toaster's dismiss-timer map
has pairwise-distinct `(stable id, instance id)` keys (at most one pending
timer per key); and replacing the content of a stored record via
`updateToast` cancels the timer under the old `(id, instanceId)` key — the
old key survives in no timer — while (when not hovered and the new resolved
duration is positive) a fresh full-duration timer is scheduled under the new
key `(id, new instance id)` rather than inherited. -/
theorem c8_timer_keys (s : Sys) (h : Reachable s) :
    (s.timers.map (fun tm => tm.key)).Nodup
    ∧ ∀ t ∈ s.store.toasts, ∀ o : InternalToastOptions,
        ((t.id, t.instanceId) ∉
          (updateToast t.id o s).timers.map (fun tm => tm.key))
        ∧ (s.hover = false →
           0 < resolveDuration (mergeOptions s.store.options? o).duration? →
           { key := (t.id, ToastId.gen (s.counter + 1))
             fire := s.now + resolveDuration
               (mergeOptions s.store.options? o).duration? }
             ∈ (updateToast t.id o s).timers) := by
  obtain ⟨h1, h2, h3, hb⟩ := reachable_invGood h
  refine ⟨h2, ?_⟩
  intro t ht o
  have hts := singleton_of_mem_len_le_one h1 ht
  have htm := updateToast_single_timers o s t hts hb.2
  have htinst : ∃ n, n ≤ s.counter ∧ t.instanceId = ToastId.gen n :=
    hb.1 t ht
  constructor
  · rw [htm]
    by_cases hh : s.hover = true
    · rw [if_pos hh]
      simp
    · rw [if_neg hh]
      by_cases hd : 0 < resolveDuration (mergeOptions s.store.options? o).duration?
      · rw [if_pos hd]
        simp only [List.map_cons, List.map_nil, List.mem_singleton]
        intro hkey
        obtain ⟨n, hn, hk⟩ := htinst
        have := (Prod.mk.injEq _ _ _ _).mp hkey
        rw [hk] at this
        have := ToastId.gen.inj this.2
        omega
      · rw [if_neg hd]
        simp
  · intro hh hd
    rw [htm, if_neg (by rw [hh]; exact Bool.false_ne_true), if_pos hd]
    exact List.mem_singleton.mpr rfl

/-- Claim C8 witness: `sysOne` is reachable (pristine system, one create) and
its timer map has distinct keys; updating its record cancels the old timer
key and schedules the fresh one. -/
theorem c8_witness :
    (sysOne.timers.map (fun tm => tm.key)).Nodup
    ∧ ((ToastId.gen 1, ToastId.gen 2) ∉
        (updateToast (ToastId.gen 1) {} sysOne).timers.map (fun tm => tm.key)) := by
  have hreach : Reachable sysOne :=
    Reachable.step Reachable.init (Step.create {} sysEmpty)
  have h := c8_timer_keys sysOne hreach
  refine ⟨h.1, ?_⟩
  have h2 := (h.2 demoToast (by decide) {}).1
  exact h2

/- ------------------------------ Claim C9 ---------------------------------- -/

/-- Claim C9: while the viewport is hovered, the pending dismiss-timer map of
every reachable state is empty — there is no timer to fire, and the effect
schedules none; upon unhover, `handleMouseLeave` schedules, for every
still-live (non-exiting) record with a positive resolved duration, a fresh
timer of the full configured duration measured from the current instant (not
the remaining time). -/
theorem c9_hover_timers (s : Sys) (h : Reachable s) (hh : s.hover = true) :
    s.timers = []
    ∧ ∀ t ∈ s.store.toasts, t.exiting = false →
        0 < resolveDuration t.duration? →
        { key := timeoutKey t
          fire := s.now + resolveDuration t.duration? }
          ∈ (handleMouseLeave s).timers := by
  obtain ⟨h1, h2, h3, hb⟩ := reachable_invGood h
  refine ⟨h3 hh, ?_⟩
  intro t ht hex hd
  have hts := singleton_of_mem_len_le_one h1 ht
  have htimers : s.timers = [] := h3 hh
  unfold handleMouseLeave
  rw [if_pos (by rw [hh])]
  unfold scheduleTimers
  rw [if_neg (by simp), hts]
  simp only [List.foldl_cons, List.foldl_nil]
  unfold scheduleOne
  simp only [htimers, hex, Bool.false_eq_true, if_false, List.any_nil]
  rw [if_neg (by omega)]
  simp only [htimers]
  exact List.mem_singleton.mpr rfl

/-- Claim C9 witness: in the hovered reachable state `sysHover` the timer map
is empty, and unhovering schedules the full 6000 ms timer for the live
default record from the current clock. -/
theorem c9_witness :
    sysHover.timers = []
    ∧ { key := timeoutKey demoToast
        fire := sysHover.now + resolveDuration demoToast.duration? }
        ∈ (handleMouseLeave sysHover).timers := by
  have hreach : Reachable sysHover :=
    Reachable.step (Reachable.step Reachable.init (Step.create {} sysEmpty))
      (Step.enter sysOne)
  have h := c9_hover_timers sysHover hreach rfl
  exact ⟨h.1, h.2 demoToast (by decide) rfl (by decide)⟩
